import Mathlib

/-!
Verification of the esera-mqtt bridge against its specification.

The Rust sources are shallowly embedded: pure functions become Lean
functions, `&mut self` methods become state-passing functions, fallible
code returns `Option`/`Except`, `f32` temperatures are modelled as exact
rationals (ℚ), and machine integers as `Nat`/`Int`.
-/

namespace Esera

/-- mqtt.rs `MqttMsg`: publish / subscribe / reconnect-notice messages. -/
inductive MqttMsg where
  | Pub (topic : String) (payload : String) (retain : Bool)
  | Sub (topic : String)
  | Reconnected
deriving DecidableEq, Repr

/-- mqtt.rs `MqttMsg::new`: non-retained publication. -/
def MqttMsg.new (topic payload : String) : MqttMsg := .Pub topic payload false

/-- mqtt.rs `MqttMsg::retain`: retained publication. -/
def MqttMsg.mkRetain (topic payload : String) : MqttMsg := .Pub topic payload true

/-- mqtt.rs `MqttMsg::sub`. -/
def MqttMsg.mkSub (topic : String) : MqttMsg := .Sub topic

/-- mqtt.rs `MqttMsg::payload`: the source panics on non-publish messages,
modelled by `none`. -/
def MqttMsg.payload : MqttMsg → Option String
  | .Pub _ p _ => some p
  | _ => none

/-- lib.rs `TwoWay`: MQTT messages plus controller command lines. -/
structure TwoWay where
  mqtt : List MqttMsg
  ow : List String
deriving DecidableEq, Repr

/-- lib.rs `TwoWay::default`. -/
def TwoWay.empty : TwoWay := ⟨[], []⟩

/-- lib.rs `TwoWay::from_1wire`. -/
def TwoWay.from_1wire (cmd : String) : TwoWay := ⟨[], [cmd]⟩

/-- lib.rs `TwoWay::from_mqtt`. -/
def TwoWay.from_mqtt (m : MqttMsg) : TwoWay := ⟨[m], []⟩

/-- lib.rs `impl Add for TwoWay` (concatenation of both lists). -/
def TwoWay.add (a b : TwoWay) : TwoWay := ⟨a.mqtt ++ b.mqtt, a.ow ++ b.ow⟩

/-- parser.rs `Status`: device status codes. -/
inductive Status where
  | Online
  | Err1
  | Err2
  | Err3
  | Offline
  | Unconfigured
deriving DecidableEq, Repr

/-- parser.rs `Status` strum `EnumString` instance: wire codes `0`..`10`. -/
def Status.fromWire (s : String) : Option Status :=
  if s = "0" then some .Online
  else if s = "1" then some .Err1
  else if s = "2" then some .Err2
  else if s = "3" then some .Err3
  else if s = "5" then some .Offline
  else if s = "10" then some .Unconfigured
  else none

/-- parser.rs `Status` strum serialization (wire direction). -/
def Status.wire : Status → String
  | .Online => "0"
  | .Err1 => "1"
  | .Err2 => "2"
  | .Err3 => "3"
  | .Offline => "5"
  | .Unconfigured => "10"

/-- lib.rs `DeviceInfo`. -/
structure DeviceInfo where
  contno : Nat
  busid : String
  serno : String
  status : Status
  artno : String
  name : Option String
deriving DecidableEq, Repr

/-- lib.rs `DeviceInfo::fmt`: device-relative MQTT topic. -/
def DeviceInfo.fmt (info : DeviceInfo) (args : String) : String :=
  "ESERA/" ++ toString info.contno ++ "/" ++ info.name.getD info.busid ++ "/" ++ args

/-- lib.rs `DeviceInfo::devno`: bare device number — the busid with an `OWD`
prefix stripped (char-level model of `strip` on the `OWD` prefix). -/
def DeviceInfo.devno (info : DeviceInfo) : String :=
  if info.busid.toList.take 3 = ['O', 'W', 'D'] then
    String.mk (info.busid.toList.drop 3)
  else info.busid

/-- device/mod.rs `bool2str` (argument is the `u32` the source converts to). -/
def bool2str (n : Nat) : String := if n = 0 then "0" else "1"

/-- device/mod.rs `str2bool`. -/
def str2bool (s : String) : Bool := s == "1" || s == "on" || s == "true"

/-- device/mod.rs `digital_io` (lines 194-233): per-bit level or edge
publications for an `n`-bit input word. The source asserts `val >= 0`
for its `i32` arguments, so words are modelled as `Nat`. -/
def digitalIoFn (info : DeviceInfo) (n : Nat) (inout : String) (val : Nat)
    (previous : Option Nat) : TwoWay :=
  (List.range n).foldl
    (fun res bit =>
      match previous with
      | some old =>
        if val &&& (1 <<< bit) ≠ old &&& (1 <<< bit) then
          res.add (TwoWay.from_mqtt (MqttMsg.new
            (info.fmt (inout ++ "/ch" ++ toString (bit + 1)))
            (bool2str (val &&& (1 <<< bit)))))
        else res
      | none =>
        res.add (TwoWay.from_mqtt (MqttMsg.new
          (info.fmt (inout ++ "/ch" ++ toString (bit + 1)))
          (bool2str (val &&& (1 <<< bit))))))
    TwoWay.empty

/-- Devstatus record as consumed by device/switch8.rs (`s.contno`, `s.addr`,
`s.val`; the value is asserted nonnegative downstream). -/
structure DevstatusEvt where
  contno : Nat
  addr : String
  val : Nat
deriving DecidableEq, Repr

/-- The `Response` type matched by device/switch8.rs `handle_1wire`: only the
`Devstatus` arm is distinguished there; every other variant falls into the
catch-all arm and is collapsed into `other`. -/
inductive Response where
  | Devstatus (s : DevstatusEvt)
  | other
deriving DecidableEq, Repr

/-- Rust `addr.rsplit('_').nth(0).unwrap()`: the suffix after the last `_`
(the whole string when no `_` occurs). -/
def rsplitFirst (addr : String) : String :=
  String.mk ((addr.toList.reverse.takeWhile (fun c => c != '_')).reverse)

/-- device/switch8.rs `Switch8`. -/
structure Switch8 where
  info : DeviceInfo
deriving DecidableEq, Repr

/-- device/switch8.rs `Switch8::handle_1wire` (lines 40-55). The source calls
`digital_io(&self.info, 8, "in", s.val)` without a `previous` word (the
function in device/mod.rs takes five arguments), so the only consistent
reading is level-only emission, rendered here as `previous = none`.
The `panic!` arm for unknown bus addresses is modelled as `none`. -/
def Switch8.handle_1wire (d : Switch8) : Response → Option TwoWay
  | .Devstatus s =>
    if rsplitFirst s.addr = "1" then some (digitalIoFn d.info 8 ("in") s.val none)
    else if rsplitFirst s.addr = "3" then some (digitalIoFn d.info 8 ("out") s.val none)
    else none
  | .other => some TwoWay.empty

/-- device/switch8.rs `Switch8::handle_mqtt` (lines 94-105). `msg.payload()`
panics on non-publish messages (`none`); otherwise the handler always
succeeds, so the `Result::Ok` value is returned directly. -/
def Switch8.handle_mqtt (d : Switch8) (msg : MqttMsg) (token : Int) : Option TwoWay :=
  match msg.payload with
  | none => none
  | some pl =>
    some (if 0 ≤ token ∧ token < 8 then
      TwoWay.from_1wire
        ("SET,OWD,OUT," ++ d.info.devno ++ "," ++ toString token ++ ","
          ++ bool2str (if str2bool pl then 1 else 0))
    else TwoWay.empty)

/-- routing.rs `Token`. -/
abbrev Token := Int

/-- routing.rs `Routes`: `HashMap<String, Vec<Id<I>>>` modelled as an
association list; `register` keeps keys unique and appends new keys at the
end (the HashMap's iteration order is unspecified in the source). -/
structure Routes (I : Type) where
  by_topic : List (String × List (I × Token))
deriving DecidableEq

/-- routing.rs `Routes::new`. -/
def Routes.mkNew (I : Type) : Routes I := ⟨[]⟩

/-- HashMap `get_mut` + `push`: append `id` to the entry of `topic`. -/
def updateFirst {I : Type} :
    List (String × List (I × Token)) → String → (I × Token) →
    List (String × List (I × Token))
  | [], _, _ => []
  | (k, v) :: rest, topic, id =>
    if k = topic then (k, v ++ [id]) :: rest
    else (k, v) :: updateFirst rest topic id

/-- routing.rs `Routes::register` (lines 27-35). -/
def Routes.register {I : Type} (r : Routes I) (topic : String) (id : I × Token) :
    Routes I × Option MqttMsg :=
  match r.by_topic.find? (fun e => e.1 == topic) with
  | some _ => (⟨updateFirst r.by_topic topic id⟩, none)
  | none => (⟨r.by_topic ++ [(topic, [id])]⟩, some (.Sub topic))

/-- routing.rs `Routes::lookup` (lines 43-49): exact `HashMap::get`. -/
def Routes.lookup {I : Type} (r : Routes I) (topic : String) : List (I × Token) :=
  match r.by_topic.find? (fun e => e.1 == topic) with
  | some e => e.2
  | none => []

/-- routing.rs `Routes::subscriptions` (lines 51-55). -/
def Routes.subscriptions {I : Type} (r : Routes I) : List MqttMsg :=
  r.by_topic.map (fun e => .Sub e.1)

/-- The registered topics (`by_topic.keys()`). -/
def Routes.topics {I : Type} (r : Routes I) : List String :=
  r.by_topic.map Prod.fst

/-- Run a sequence of `register` calls from a given table. -/
def applyFrom {I : Type} (r : Routes I) (regs : List (String × (I × Token))) : Routes I :=
  regs.foldl (fun r p => (r.register p.1 p.2).1) r

/-- Run a sequence of `register` calls from the empty table. -/
def applyRegs {I : Type} (regs : List (String × (I × Token))) : Routes I :=
  applyFrom (Routes.mkNew I) regs

/-! ## climate.rs — the virtual HVAC controller

`f32` temperatures are modelled as exact rationals; the comparisons in the
source are plain `<`, `>=` and `abs`, mirrored one-to-one on ℚ. -/

/-- climate.rs `BASE`. -/
def climateBASE : String := "homeassistant/climate/virt"

/-- climate.rs `INITIAL_TEMP`. -/
def INITIAL_TEMP : ℚ := 21.0

/-- climate.rs `EPSILON_TEMP`. -/
def EPSILON_TEMP : ℚ := 0.02

/-- climate.rs `AUX_HEAT_TRIGGER`. -/
def AUX_HEAT_TRIGGER : ℚ := 0.8

/-- climate.rs token constants. -/
def TOK_HEAT_STATE : Token := 1

/-- climate.rs token constants. -/
def TOK_TEMP : Token := 2

/-- climate.rs token constants. -/
def TOK_MODE_SET : Token := 3

/-- climate.rs token constants. -/
def TOK_TEMP_SET : Token := 4

/-- climate.rs token constants. -/
def TOK_DEW : Token := 5

/-- climate.rs token constants. -/
def TOK_AUX_STATE : Token := 6

/-- climate.rs `Error` (the wrapped `ParseFloatError` detail is dropped). -/
inductive CError where
  | FloatFormat (payload : String)
  | Keyword (payload : String)
deriving DecidableEq, Repr

/-- climate.rs `Conf` (TOML-provided topics and offset). -/
structure Conf where
  heat_state : String
  heat_cmnd : String
  aux_state : Option String
  aux_cmnd : Option String
  temp : String
  dew : Option String
  offset : ℚ
deriving DecidableEq, Repr

/-- climate.rs `Mode`. -/
inductive Mode where
  | Off
  | Heat
deriving DecidableEq, Repr

/-- climate.rs `Mode` strum `Display` (serialize attributes). -/
def Mode.toStr : Mode → String
  | .Off => "off"
  | .Heat => "heat"

/-- climate.rs `Mode` strum `EnumString`: exact, case-sensitive match. -/
def Mode.fromStr (s : String) : Option Mode :=
  if s = "off" then some .Off else if s = "heat" then some .Heat else none

/-- climate.rs `Action`. -/
inductive Action where
  | Off
  | Idle
  | Heating
deriving DecidableEq, Repr

/-- climate.rs `Action` strum `Display`. -/
def Action.toStr : Action → String
  | .Off => "off"
  | .Idle => "idle"
  | .Heating => "heating"

/-- Rendering of an `f32` payload (Rust `ToString`); the claims never depend
on the concrete digits, only on the payload rendering being a function of
the value. -/
def showTemp (q : ℚ) : String := toString q

/-- climate.rs `Climate` (the logger field is omitted). -/
structure Climate where
  name : String
  conf : Conf
  mode : Mode
  temp_set : ℚ
  temp_cur : ℚ
  heating_on : Bool
  aux_on : Bool
deriving DecidableEq, Repr

/-- climate.rs `Climate::new`. -/
def Climate.mkNew (name : String) (conf : Conf) : Climate :=
  ⟨name, conf, .Heat, INITIAL_TEMP, INITIAL_TEMP, false, false⟩

/-- climate.rs `Climate::t`: topic under the per-unit base. -/
def Climate.t (c : Climate) (tail : String) : String :=
  climateBASE ++ "/" ++ c.name ++ "/" ++ tail

/-- climate.rs `Climate::action`. -/
def Climate.action (c : Climate) : Action :=
  if c.mode = .Off then .Off
  else if c.heating_on then .Heating
  else .Idle

/-- climate.rs `Climate::set_aux` (lines 196-204): emits a command only if an
aux command topic is configured and the aux flag differs from the target. -/
def Climate.set_aux (c : Climate) (b : Bool) : List MqttMsg :=
  match c.conf.aux_cmnd with
  | some aux_cmnd =>
    if c.aux_on ≠ b then [MqttMsg.new aux_cmnd (bool2str (if b then 1 else 0))]
    else []
  | none => []

/-- climate.rs `Climate::eval` (lines 265-309). -/
def Climate.eval (c : Climate) : List MqttMsg :=
  let res := [MqttMsg.new (c.t ("action")) c.action.toStr,
              MqttMsg.new (c.t ("mode")) c.mode.toStr,
              MqttMsg.new (c.t ("current")) (showTemp c.temp_cur),
              MqttMsg.new (c.t ("target")) (showTemp c.temp_set)]
  if c.mode = .Off then
    (res ++ (if c.heating_on then [MqttMsg.new c.conf.heat_cmnd (bool2str 0)] else []))
      ++ c.set_aux false
  else
    let res := res ++
      (if c.temp_cur ≥ c.temp_set - 0.1 ∧ c.aux_on then c.set_aux false else [])
    if c.temp_cur < c.temp_set ∧ c.heating_on = false then
      (res ++ [MqttMsg.new c.conf.heat_cmnd (bool2str 1)])
        ++ (if c.temp_cur < c.temp_set - AUX_HEAT_TRIGGER then c.set_aux true else [])
    else if ¬ c.temp_cur < c.temp_set ∧ c.heating_on = true then
      res ++ [MqttMsg.new c.conf.heat_cmnd (bool2str 0)]
    else res

/-- Model of Rust `str::parse::<f32>` restricted to plain signed decimal
literals (optional sign, digits, optional fractional part). Exponent forms,
`inf`/`NaN` and binary float rounding are not modelled; the claims only
exercise short decimals and non-numeric payloads. -/
def digitsVal (l : List Char) : Nat :=
  l.foldl (fun a c => a * 10 + (c.toNat - 48)) 0

/-- Split a character list at every `.` (structural `split` on one char). -/
def splitDot : List Char → List (List Char)
  | [] => [[]]
  | c :: rest =>
    if c = '.' then [] :: splitDot rest
    else
      match splitDot rest with
      | h :: t => (c :: h) :: t
      | [] => [[c]]

/-- Decimal-literal parsing, body without sign (see `parseF32`). -/
def parseDecimal (body : List Char) : Option ℚ :=
  match splitDot body with
  | [i] =>
    if i ≠ [] ∧ i.all Char.isDigit then some ((digitsVal i : ℚ)) else none
  | [i, f] =>
    if (i ≠ [] ∨ f ≠ []) ∧ i.all Char.isDigit ∧ f.all Char.isDigit then
      some ((digitsVal i : ℚ) + (digitsVal f : ℚ) / (10 : ℚ) ^ f.length)
    else none
  | _ => none

/-- Model of Rust `str::parse::<f32>` (see `parseDecimal`). -/
def parseF32 (s : String) : Option ℚ :=
  match s.toList with
  | [] => none
  | c :: rest =>
    if c = '-' then (parseDecimal rest).map Neg.neg
    else if c = '+' then parseDecimal rest
    else parseDecimal (c :: rest)

/-- climate.rs `Climate::process` (lines 206-263): `&mut self` becomes
explicit state passing, `Result` becomes `Except`. -/
def Climate.process (c : Climate) (token : Token) (_topic payload : String) :
    Except CError (Climate × List MqttMsg) :=
  if token = TOK_TEMP_SET then
    match parseF32 payload with
    | none => .error (.FloatFormat payload)
    | some new =>
      if |c.temp_set - new| > EPSILON_TEMP then
        let c := { c with temp_set := new }
        .ok (c, c.eval ++ [MqttMsg.mkRetain (c.t ("target/set")) payload])
      else .ok (c, [])
  else if token = TOK_TEMP then
    match parseF32 payload with
    | none => .error (.FloatFormat payload)
    | some v =>
      let new := v + c.conf.offset
      if |c.temp_cur - new| > EPSILON_TEMP then
        let c := { c with temp_cur := new }
        .ok (c, c.eval)
      else .ok (c, [])
  else if token = TOK_MODE_SET then
    match Mode.fromStr payload with
    | none => .error (.Keyword payload)
    | some new =>
      if c.mode ≠ new then
        let c := { c with mode := new }
        .ok (c, c.eval ++ [MqttMsg.mkRetain (c.t ("mode/set")) payload])
      else .ok (c, [])
  else if token = TOK_HEAT_STATE then
    let new := str2bool payload
    if c.heating_on ≠ new then
      let c := { c with heating_on := new }
      .ok (c, c.eval)
    else .ok (c, [])
  else if token = TOK_AUX_STATE then
    let new := str2bool payload
    if c.aux_on ≠ new then
      .ok ({ c with aux_on := new }, [])
    else .ok (c, [])
  else .ok (c, [])

/-- Scenario driver: feed a list of current-temperature payloads through
`process` with `TOK_TEMP`, collecting each step's publications. -/
def runTemps : Climate → List String → Climate × List (List MqttMsg)
  | c, [] => (c, [])
  | c, p :: ps =>
    match c.process TOK_TEMP "" p with
    | .ok (c1, msgs) =>
      let r := runTemps c1 ps
      (r.1, msgs :: r.2)
    | .error _ => (c, [])

/-! ## parser.rs — nom streaming parser, LST3 subset

The nom combinators used by `lst3` are modelled over `List Char` with the
streaming error discipline: `incomplete` when more input could make the
parse succeed, `failure` otherwise. -/

/-- nom error outcome (Error and Failure collapse; no `cut` is used). -/
inductive PErr where
  | incomplete
  | failure
deriving DecidableEq, Repr

/-- A parser consumes a prefix of the input and yields the rest plus a value. -/
def Parser (α : Type) : Type := List Char → Except PErr (List Char × α)

/-- nom streaming `tag`: input shorter than a matching prefix is incomplete. -/
def tagP : List Char → Parser Unit
  | [], input => .ok (input, ())
  | _ :: _, [] => .error .incomplete
  | c :: ts, x :: xs => if x = c then tagP ts xs else .error .failure

/-- nom streaming `char`. -/
def ccP (c : Char) : Parser Unit := fun input =>
  match input with
  | [] => .error .incomplete
  | x :: xs => if x = c then .ok (xs, ()) else .error .failure

/-- Maximal run of characters satisfying `p`, with the rest. -/
def spanP (p : Char → Bool) : List Char → List Char × List Char
  | [] => ([], [])
  | c :: cs =>
    if p c then
      let r := spanP p cs
      (c :: r.1, r.2)
    else ([], c :: cs)

/-- nom streaming `take_while1`-style primitive (`digit1`, `alphanumeric1`):
incomplete when the run reaches the end of input, failure when empty. -/
def while1P (p : Char → Bool) : Parser (List Char) := fun input =>
  let r := spanP p input
  if r.2 = [] then .error .incomplete
  else if r.1 = [] then .error .failure
  else .ok (r.2, r.1)

/-- nom streaming `digit1`. -/
def digit1P : Parser (List Char) := while1P Char.isDigit

/-- nom streaming `alphanumeric1` (ASCII). -/
def alphanumeric1P : Parser (List Char) := while1P Char.isAlphanum

/-- parser.rs `identifier`: `recognize(many1(alt((alphanumeric1, tag("_")))))`,
i.e. a maximal nonempty run of alphanumerics and underscores. -/
def identifierP : Parser (List Char) := while1P (fun c => c.isAlphanum || c = '_')

/-- nom streaming `not_line_ending`. -/
def notLineEndingP : Parser (List Char) := fun input =>
  let r := spanP (fun c => c != '\r' && c != '\n') input
  match r.2 with
  | [] => .error .incomplete
  | c :: rest =>
    if c = '\r' then
      match rest with
      | [] => .error .incomplete
      | c2 :: _ => if c2 = '\n' then .ok (r.2, r.1) else .error .failure
    else .ok (r.2, r.1)

/-- nom streaming `line_ending`: `\n` or `\r\n`. -/
def lineEndingP : Parser Unit := fun input =>
  match input with
  | [] => .error .incomplete
  | c :: rest =>
    if c = '\n' then .ok (rest, ())
    else if c = '\r' then
      match rest with
      | [] => .error .incomplete
      | c2 :: rest2 => if c2 = '\n' then .ok (rest2, ()) else .error .failure
    else .error .failure

/-- nom streaming `opt`: failure yields `none`, incomplete propagates. -/
def poptP {α : Type} (p : Parser α) : Parser (Option α) := fun input =>
  match p input with
  | .ok (rem, a) => .ok (rem, some a)
  | .error .failure => .ok (input, none)
  | .error .incomplete => .error .incomplete

/-- Rust `str::trim` (char-level): drop whitespace from both ends. -/
def trimChars (l : List Char) : List Char :=
  ((l.dropWhile Char.isWhitespace).reverse.dropWhile Char.isWhitespace).reverse

/-- Equality on `Except` results is decidable (for evaluating parses). -/
instance {ε α : Type} [DecidableEq ε] [DecidableEq α] : DecidableEq (Except ε α) := by
  intro a b
  cases a with
  | error e1 =>
    cases b with
    | error e2 =>
      exact if h : e1 = e2 then isTrue (by rw [h]) else isFalse (fun hc => h (by injection hc))
    | ok v2 => exact isFalse (fun hc => Except.noConfusion hc)
  | ok v1 =>
    cases b with
    | error e2 => exact isFalse (fun hc => Except.noConfusion hc)
    | ok v2 =>
      exact if h : v1 = v2 then isTrue (by rw [h]) else isFalse (fun hc => h (by injection hc))

/-- parser.rs `contno`: `map_res(terminated(digit1, char('_')), parse::<u8>)`. -/
def contnoP : Parser Nat := fun input =>
  match digit1P input with
  | .error e => .error e
  | .ok (r1, ds) =>
    match ccP '_' r1 with
    | .error e => .error e
    | .ok (r2, _) =>
      if digitsVal ds ≤ 255 then .ok (r2, digitsVal ds) else .error .failure

/-- parser.rs `header(key)`: contno, the key, then `|`. -/
def headerP (key : String) : Parser Nat := fun input =>
  match contnoP input with
  | .error e => .error e
  | .ok (r1, c) =>
    match tagP key.toList r1 with
    | .error e => .error e
    | .ok (r2, _) =>
      match ccP '|' r2 with
      | .error e => .error e
      | .ok (r3, _) => .ok (r3, c)

/-- parser.rs `remainder`: `terminated(not_line_ending, line_ending)`. -/
def remainderP : Parser (List Char) := fun input =>
  match notLineEndingP input with
  | .error e => .error e
  | .ok (r1, txt) =>
    match lineEndingP r1 with
    | .error e => .error e
    | .ok (r2, _) => .ok (r2, txt)

/-- The characters of the literal `LST|` (char-level form of `"LST|"`). -/
def lstTag : List Char := ['L', 'S', 'T', '|']

/-- The characters of the literal `|S_`. -/
def statusTag : List Char := ['|', 'S', '_']

/-- The optional name field: `preceded(cc('|'), not_line_ending)`. -/
def nameFieldP : Parser (List Char) := fun inp =>
  match ccP '|' inp with
  | .error e => .error e
  | .ok (r, _) => notLineEndingP r

/-- parser.rs `lst3` inner item: one `LST|<contno>_<busid>|<serno>|S_<code>|<artno>[|<name>]`
line, `map_res`-converted into a `DeviceInfo`. The head tag is
`format!("LST|{}_", contno)`. -/
def lst3ItemP (contno : Nat) : Parser DeviceInfo := fun input =>
  match tagP (lstTag ++ (toString contno).toList ++ ['_']) input with
  | .error e => .error e
  | .ok (r1, _) =>
  match alphanumeric1P r1 with
  | .error e => .error e
  | .ok (r2, busid) =>
  match ccP '|' r2 with
  | .error e => .error e
  | .ok (r3, _) =>
  match alphanumeric1P r3 with
  | .error e => .error e
  | .ok (r4, serno) =>
  match tagP statusTag r4 with
  | .error e => .error e
  | .ok (r5, _) =>
  match identifierP r5 with
  | .error e => .error e
  | .ok (r6, statusRaw) =>
  match ccP '|' r6 with
  | .error e => .error e
  | .ok (r7, _) =>
  match alphanumeric1P r7 with
  | .error e => .error e
  | .ok (r8, artno) =>
  match poptP nameFieldP r8 with
  | .error e => .error e
  | .ok (r9, nameRaw) =>
  match lineEndingP r9 with
  | .error e => .error e
  | .ok (r10, _) =>
    match Status.fromWire (String.mk statusRaw) with
    | some st =>
      .ok (r10,
        ⟨contno, String.mk busid, String.mk serno, st, String.mk artno,
          nameRaw.bind
            (fun n => if trimChars n = [] then none else some (String.mk (trimChars n)))⟩)
    | none => .error .failure

/-- nom `many_m_n` loop (streaming): consumes up to `fuel` more items; on an
item failure succeeds iff at least `min` items were collected; propagates
incomplete; fails if an item consumed no input (nom's infinite-loop guard). -/
def manyGo {α : Type} (p : Parser α) (min : Nat) :
    Nat → Nat → List α → Parser (List α)
  | 0, _, acc => fun input => .ok (input, acc.reverse)
  | fuel + 1, count, acc => fun input =>
    match p input with
    | .ok (rem, a) =>
      if rem.length = input.length then .error .failure
      else manyGo p min fuel (count + 1) (a :: acc) rem
    | .error .failure =>
      if min ≤ count then .ok (input, acc.reverse) else .error .failure
    | .error .incomplete => .error .incomplete

/-- nom `many_m_n min max p`. -/
def manyMN {α : Type} (min max : Nat) (p : Parser α) : Parser (List α) :=
  manyGo p min max 0 []

/-- parser.rs `CSI` record. -/
structure CSI where
  date : String
  time : String
  artno : String
  serno : String
  fw : String
  hw : String
deriving DecidableEq, Repr

/-- parser.rs `Devstatus` (signed value). -/
structure Devstatus where
  addr : String
  val : Int
deriving DecidableEq, Repr

/-- parser.rs `DIO`. -/
inductive DIO where
  | IndependentLevel
  | IndependentEdge
  | LinkedLevel
  | LinkedEdge
deriving DecidableEq, Repr

/-- parser.rs `OWDStatus`. -/
structure OWDStatus where
  owd : Nat
  status : Status
deriving DecidableEq, Repr

/-- parser.rs `Msg`: the typed controller messages. -/
inductive Msg where
  | Keepalive (flag : Char)
  | Inf (t : String)
  | Err (code : Nat)
  | Evt (t : String)
  | Rst (flag : Char)
  | Rdy (flag : Char)
  | Save (flag : Char)
  | Dataprint (flag : Char)
  | Datatime (v : Nat)
  | Date (d : String)
  | Time (t : String)
  | List3 (items : List DeviceInfo)
  | CSIMsg (c : CSI)
  | DIOMsg (d : DIO)
  | OWDStatusMsg (s : OWDStatus)
  | DevstatusMsg (s : Devstatus)
deriving DecidableEq, Repr

/-- parser.rs `OW`: controller number plus message. -/
structure OW where
  contno : Nat
  msg : Msg
deriving DecidableEq, Repr

/-- parser.rs `lst3` (lines 276-312): header line, then 1..30 `LST|` lines. -/
def lst3P : Parser OW := fun input =>
  match headerP "LST3" input with
  | .error e => .error e
  | .ok (r1, contno) =>
  match remainderP r1 with
  | .error e => .error e
  | .ok (r2, _) =>
  match manyMN 1 30 (lst3ItemP contno) r2 with
  | .error e => .error e
  | .ok (r3, items) => .ok (r3, ⟨contno, .List3 items⟩)

/-- `lst3` applied to a string input. -/
def lst3S (s : String) : Except PErr (List Char × OW) := lst3P s.toList

/-- device/mod.rs `Model` (lines 293-303). The variants' device-local state
beyond their `DeviceInfo` is not consulted by any claim and is elided;
`Switch8` keeps its struct. -/
inductive Model where
  | AirQuality (info : DeviceInfo)
  | BinarySensor (info : DeviceInfo)
  | Controller2 (info : DeviceInfo)
  | Hub (info : DeviceInfo)
  | Switch8M (d : Switch8)
  | TempHum (info : DeviceInfo)
  | Unknown (info : DeviceInfo)
deriving DecidableEq, Repr

/-- device/mod.rs `Model::select` (lines 305-318). -/
def Model.select (info : DeviceInfo) : Model :=
  if info.artno = "11150" then .TempHum info
  else if info.artno = "11151" then .AirQuality info
  else if info.artno = "11216" then .BinarySensor info
  else if info.artno = "11220" ∨ info.artno = "11228" ∨ info.artno = "11229" then
    .Switch8M ⟨info⟩
  else if info.artno = "11322" then .Hub info
  else if info.artno = "11340" then .Controller2 info
  else .Unknown info

/-- Response kinds awaited by `pick!` during the handshake. -/
inductive AckKind where
  | Dataprint
  | Date
  | Time
  | Datatime
  | Save
deriving DecidableEq, Repr

/-- controller.rs `ControllerConnection::setup` (lines 61-77): the
straight-line handshake embedded as its trace of (command line sent,
response kind awaited by the following `pick!`). `date` and `time` are the
host wall-clock strings the source formats with `%d.%m.%y` / `%H:%M:%S`. -/
def setupTrace (date time : String) : List (String × AckKind) :=
  [("SET,SYS,DATAPRINT,1", .Dataprint),
   ("SET,SYS,DATE," ++ date, .Date),
   ("SET,SYS,TIME," ++ time, .Time),
   ("SET,SYS,DATATIME,20", .Datatime),
   ("SET,SYS,SAVE", .Save)]

/-! ## Spec-side rule and scenario constants -/

/-- C2 (amended) evaluation rule, stated from the spec text: on every
evaluation the unit republishes action, mode, current and target; in
mode=off it publishes `0` to the heat-command topic when heating is on, and
`0` to the aux-command topic when one is configured and aux is on; in
mode=heat it publishes `0` to the configured aux-command topic when
current ≥ setpoint − 0.1 °C and aux is on, publishes `1` to the
heat-command topic exactly when current < setpoint and heating is off —
additionally `1` to the configured aux-command topic when also
current < setpoint − 0.8 °C and aux is off — and publishes `0` to the
heat-command topic exactly when current ≥ setpoint and heating is on.
(Publication order follows the code's emission order.) -/
def evalSpec (c : Climate) : List MqttMsg :=
  [MqttMsg.new (c.t ("action")) c.action.toStr,
   MqttMsg.new (c.t ("mode")) c.mode.toStr,
   MqttMsg.new (c.t ("current")) (showTemp c.temp_cur),
   MqttMsg.new (c.t ("target")) (showTemp c.temp_set)]
  ++ (match c.mode with
      | .Off =>
        (if c.heating_on then [MqttMsg.new c.conf.heat_cmnd ("0")] else [])
          ++ (match c.conf.aux_cmnd with
              | some a => if c.aux_on then [MqttMsg.new a ("0")] else []
              | none => [])
      | .Heat =>
        (match c.conf.aux_cmnd with
         | some a =>
           if c.temp_set - 0.1 ≤ c.temp_cur ∧ c.aux_on then [MqttMsg.new a ("0")]
           else []
         | none => [])
          ++ (if c.temp_cur < c.temp_set ∧ ¬ c.heating_on then
                MqttMsg.new c.conf.heat_cmnd ("1") ::
                  (match c.conf.aux_cmnd with
                   | some a =>
                     if c.temp_cur < c.temp_set - 0.8 ∧ ¬ c.aux_on then
                       [MqttMsg.new a ("1")]
                     else []
                   | none => [])
              else if c.temp_set ≤ c.temp_cur ∧ c.heating_on then
                [MqttMsg.new c.conf.heat_cmnd ("0")]
              else []))

/-- Concrete HVAC configuration used by the C2/C3/C9 scenarios. -/
def confX : Conf :=
  ⟨"heat/state", "heat/cmd", some ("aux/state"), some ("aux/cmd"), "temp", none, 0⟩

/-- An HVAC configuration without auxiliary heating. -/
def confNoAux : Conf := ⟨"heat/state", "heat/cmd", none, none, "temp", none, 0⟩

/-- Mode off, heating on, aux on (C2 scenario). -/
def c2off : Climate := ⟨"hvac", confX, .Off, 21, 20, true, true⟩

/-- Mode heat, current far below setpoint, heating off, aux already on. -/
def c2heat : Climate := ⟨"hvac", confX, .Heat, 21, 19, false, true⟩

/-- Mode off, aux flag on, but no aux command topic configured. -/
def c2noaux : Climate := ⟨"hvac", confNoAux, .Off, 21, 20, false, true⟩

/-- C3 scenario start: `Climate::new` with an aux-capable Conf — setpoint
21.0, current 21.0, mode heat, heating and aux flags off. -/
def c3start : Climate := Climate.mkNew "hvac" confX

/-- The C3 run: four consecutive current-temperature updates. -/
def c3run : Climate × List (List MqttMsg) :=
  runTemps c3start ["20.9", "20.5", "20.95", "21.5"]

/-- The command publications (to the heat or aux command topic) among a
step's messages. -/
def cmdPubs (msgs : List MqttMsg) : List MqttMsg :=
  msgs.filter (fun m =>
    match m with
    | .Pub t _ _ => t == "heat/cmd" || t == "aux/cmd"
    | _ => false)

/-- A Switch8 device at bus id `OWD1` on controller 1 (no human name). -/
def sw4 : Switch8 := ⟨⟨1, "OWD1", "4300001982956429", .Online, "11228", none⟩⟩

/-- A DeviceInfo carrying the Dimmer article number 11221. -/
def info11221 : DeviceInfo := ⟨1, "OWD3", "AB00000019096A41", .Online, "11221", none⟩

/-- The repo's own LST3 test input (parser.rs test `parse_lst3`). -/
def lstTestInput : String :=
  "1_LST3|00:02:54\n"
    ++ "LST|1_OWD1|EF000019096A4026|S_0|11150\n"
    ++ "LST|1_OWD2|4300001982956429|S_0|DS2408|K8\n"
    ++ "LST|1_OWD4|FFFFFFFFFFFFFFFF|S_10|none|             \n"
    ++ "1_EVT|0:02:55\n"

/-- One LST3 device entry, as it appears on an `LST|` line. -/
structure LstEntry where
  busid : String
  serno : String
  status : Status
  artno : String
  name : Option String
deriving DecidableEq, Repr

/-- The characters of the `LST|…` line carrying entry `e` (with trailing
newline). -/
def itemChars (contno : Nat) (e : LstEntry) : List Char :=
  lstTag ++ (toString contno).toList ++ ['_'] ++ e.busid.toList ++ ['|']
    ++ e.serno.toList ++ statusTag ++ (e.status.wire).toList ++ ['|']
    ++ e.artno.toList
    ++ (match e.name with
        | some n => '|' :: n.toList
        | none => [])
    ++ ['\n']

/-- The `DeviceInfo` that parsing the entry's line yields (name trimmed,
blank names dropped). -/
def entryInfo (contno : Nat) (e : LstEntry) : DeviceInfo :=
  ⟨contno, e.busid, e.serno, e.status, e.artno,
    e.name.bind (fun n =>
      if trimChars n.toList = [] then none
      else some (String.mk (trimChars n.toList)))⟩

/-- A nonempty, purely alphanumeric field. -/
abbrev wfField (s : String) : Prop :=
  s.toList ≠ [] ∧ ∀ x ∈ s.toList, x.isAlphanum = true

/-- Free text without CR or LF. -/
abbrev wfText (s : String) : Prop :=
  ∀ x ∈ s.toList, (x != '\r' && x != '\n') = true

/-- Wellformed LST entry: busid, serial and article number nonempty and
alphanumeric; the optional name free of line breaks. -/
abbrev wfEntry (e : LstEntry) : Prop :=
  wfField e.busid ∧ wfField e.serno ∧ wfField e.artno ∧ wfText (e.name.getD "")

/-- `a` is a prefix of `b` (stated via `take`, so it is decidable). -/
abbrev pfxList (a b : List Char) : Prop := b.take a.length = a

/-- A complete LST3 response: the header line, the entries' `LST|` lines,
then the rest of the stream. -/
def lst3Input (c : Nat) (t : String) (es : List LstEntry) (rest : List Char) :
    List Char :=
  (toString c).toList ++ ['_'] ++ ("LST3").toList ++ ['|'] ++ t.toList ++ ['\n']
    ++ (es.map (itemChars c)).flatten ++ rest

/-- The three entries of the repo's `parse_lst3` test input. -/
def c7entries : List LstEntry :=
  [⟨"OWD1", "EF000019096A4026", .Online, "11150", none⟩,
   ⟨"OWD2", "4300001982956429", .Online, "DS2408", some "K8"⟩,
   ⟨"OWD4", "FFFFFFFFFFFFFFFF", .Unconfigured, "none", some "             "⟩]

/-! ## Lemmas about the route table -/

theorem updateFirst_keys {I : Type} (l : List (String × List (I × Token)))
    (t : String) (id : I × Token) :
    (updateFirst l t id).map Prod.fst = l.map Prod.fst := by
  induction l with
  | nil => rfl
  | cons kv rest ih =>
    obtain ⟨k, v⟩ := kv
    by_cases h : k = t <;> simp [updateFirst, h, ih]

theorem find?_updateFirst {I : Type} (l : List (String × List (I × Token)))
    (t : String) (id : I × Token) (q : String) :
    (updateFirst l t id).find? (fun e => e.1 == q) =
      if q = t then (l.find? (fun e => e.1 == t)).map (fun e => (e.1, e.2 ++ [id]))
      else l.find? (fun e => e.1 == q) := by
  induction l with
  | nil => simp only [updateFirst, List.find?]; split_ifs <;> rfl
  | cons kv rest ih =>
    obtain ⟨k, v⟩ := kv
    have hcons : updateFirst ((k, v) :: rest) t id =
        if k = t then (k, v ++ [id]) :: rest else (k, v) :: updateFirst rest t id := rfl
    by_cases hk : k = t
    · rw [hcons, if_pos hk]
      by_cases hq : q = t
      · have hb : (k == q) = true := by rw [hk, hq]; simp
        have hb2 : (k == t) = true := by rw [hk]; simp
        rw [if_pos hq]
        simp only [List.find?_cons, hb, hb2]
        rfl
      · have hb : (k == q) = false :=
          beq_eq_false_iff_ne.mpr (fun h => hq (h ▸ hk))
        rw [if_neg hq]
        simp only [List.find?_cons, hb]
    · rw [hcons, if_neg hk]
      by_cases hq : q = t
      · have hb : (k == q) = false :=
          beq_eq_false_iff_ne.mpr (fun h => hk (h.trans hq))
        have hb2 : (k == t) = false := beq_eq_false_iff_ne.mpr hk
        rw [if_pos hq]
        simp only [List.find?_cons, hb, hb2]
        have ih2 := ih
        rw [if_pos hq] at ih2
        exact ih2
      · by_cases hkq : k = q
        · have hb : (k == q) = true := by rw [hkq]; simp
          rw [if_neg hq]
          simp only [List.find?_cons, hb]
        · have hb : (k == q) = false := beq_eq_false_iff_ne.mpr hkq
          rw [if_neg hq]
          simp only [List.find?_cons, hb]
          have ih2 := ih
          rw [if_neg hq] at ih2
          exact ih2

theorem find?_append_some {α : Type} {l₁ : List α} {p : α → Bool} {x : α}
    (l₂ : List α) (h : l₁.find? p = some x) : (l₁ ++ l₂).find? p = some x := by
  induction l₁ with
  | nil => exact absurd h (by simp [List.find?])
  | cons a l ih =>
    by_cases ha : p a <;> simp_all [List.find?]

theorem find?_append_none {α : Type} {l₁ : List α} {p : α → Bool}
    (l₂ : List α) (h : l₁.find? p = none) : (l₁ ++ l₂).find? p = l₂.find? p := by
  induction l₁ with
  | nil => rfl
  | cons a l ih =>
    by_cases ha : p a <;> simp_all [List.find?]

theorem find?_mem_keys {I : Type} (l : List (String × List (I × Token))) (t : String) :
    (l.find? (fun e => e.1 == t)).isSome ↔ t ∈ l.map Prod.fst := by
  rw [List.find?_isSome]
  constructor
  · rintro ⟨x, hx, hb⟩
    have he : x.1 = t := beq_iff_eq.mp hb
    exact he ▸ List.mem_map_of_mem Prod.fst hx
  · intro h
    obtain ⟨x, hx, he⟩ := List.mem_map.mp h
    exact ⟨x, hx, beq_iff_eq.mpr he⟩

theorem lookup_register {I : Type} (r : Routes I) (t q : String) (id : I × Token) :
    ((r.register t id).1).lookup q = if q = t then r.lookup t ++ [id] else r.lookup q := by
  unfold Routes.register Routes.lookup
  cases hf : r.by_topic.find? (fun e => e.1 == t) with
  | some e =>
    dsimp only
    rw [find?_updateFirst, hf]
    by_cases hqt : q = t
    · rw [if_pos hqt, if_pos hqt]
      rfl
    · rw [if_neg hqt, if_neg hqt]
  | none =>
    dsimp only
    by_cases hq : q = t
    · subst hq
      rw [find?_append_none _ hf]
      simp [List.find?]
    · rw [if_neg hq]
      cases hg : r.by_topic.find? (fun e => e.1 == q) with
      | some e2 =>
        rw [find?_append_some _ hg]
      | none =>
        rw [find?_append_none _ hg]
        have hb : (t == q) = false := beq_eq_false_iff_ne.mpr (Ne.symm hq)
        simp [List.find?, hb]

theorem topics_register {I : Type} (r : Routes I) (t : String) (id : I × Token) :
    ((r.register t id).1).topics = if t ∈ r.topics then r.topics else r.topics ++ [t] := by
  unfold Routes.register Routes.topics
  cases hf : r.by_topic.find? (fun e => e.1 == t) with
  | some e =>
    have ht : t ∈ r.by_topic.map Prod.fst := by
      rw [← find?_mem_keys, hf]; rfl
    rw [if_pos ht]
    exact updateFirst_keys r.by_topic t id
  | none =>
    have ht : t ∉ r.by_topic.map Prod.fst := by
      rw [← find?_mem_keys, hf]; simp
    rw [if_neg ht]
    simp

theorem register_snd {I : Type} (r : Routes I) (t : String) (id : I × Token) :
    (r.register t id).2 = if t ∈ r.topics then none else some (.Sub t) := by
  unfold Routes.register
  cases hf : r.by_topic.find? (fun e => e.1 == t) with
  | some e =>
    have ht : t ∈ r.by_topic.map Prod.fst := by
      rw [← find?_mem_keys, hf]; rfl
    simp [Routes.topics, ht]
  | none =>
    have ht : t ∉ r.by_topic.map Prod.fst := by
      rw [← find?_mem_keys, hf]; simp
    simp [Routes.topics, ht]

theorem lookup_applyFrom {I : Type} (regs : List (String × (I × Token))) :
    ∀ (r : Routes I) (t : String),
      (applyFrom r regs).lookup t =
        r.lookup t ++ (regs.filter (fun p => p.1 == t)).map Prod.snd := by
  induction regs with
  | nil => intro r t; simp [applyFrom]
  | cons p rest ih =>
    intro r t
    obtain ⟨t0, id0⟩ := p
    have step : applyFrom r ((t0, id0) :: rest) = applyFrom ((r.register t0 id0).1) rest := rfl
    rw [step, ih, lookup_register]
    by_cases h : t = t0
    · subst h; simp [beq_iff_eq]
    · simp [beq_iff_eq, h, Ne.symm h]

theorem mem_topics_applyFrom {I : Type} (regs : List (String × (I × Token))) :
    ∀ (r : Routes I) (t : String),
      t ∈ (applyFrom r regs).topics ↔ t ∈ r.topics ∨ t ∈ regs.map Prod.fst := by
  induction regs with
  | nil => intro r t; simp [applyFrom]
  | cons p rest ih =>
    intro r t
    obtain ⟨t0, id0⟩ := p
    have step : applyFrom r ((t0, id0) :: rest) = applyFrom ((r.register t0 id0).1) rest := rfl
    rw [step, ih, topics_register]
    by_cases h0 : t0 ∈ r.topics
    · rw [if_pos h0]
      simp only [List.map_cons, List.mem_cons]
      constructor
      · rintro (h | h)
        · exact Or.inl h
        · exact Or.inr (Or.inr h)
      · rintro (h | h | h)
        · exact Or.inl h
        · exact Or.inl (h ▸ h0)
        · exact Or.inr h
    · rw [if_neg h0]
      simp only [List.map_cons, List.mem_cons, List.mem_append,
        List.mem_singleton, List.not_mem_nil, or_false]
      exact or_assoc

theorem nodup_topics_applyFrom {I : Type} (regs : List (String × (I × Token))) :
    ∀ (r : Routes I), (r.topics).Nodup → ((applyFrom r regs).topics).Nodup := by
  induction regs with
  | nil => intro r h; exact h
  | cons p rest ih =>
    intro r h
    obtain ⟨t0, id0⟩ := p
    have step : applyFrom r ((t0, id0) :: rest) = applyFrom ((r.register t0 id0).1) rest := rfl
    rw [step]
    apply ih
    rw [topics_register]
    by_cases h0 : t0 ∈ r.topics
    · simpa [h0] using h
    · simp [h0, List.nodup_append, h]

/-! ## Claims C1, C8 — the router -/

/-- C1 (amended): `Routes::lookup` performs an exact `HashMap` lookup on the
topic string: after any sequence of registrations, `lookup t` returns
exactly the `(locator, token)` pairs that were registered under the literal
string `t`, in registration order. No MQTT wildcard matching with `+`/`#`
is performed, so a registration under `a/+/b` is not returned when looking
up `a/x/b`. -/
theorem c1_lookup_exact_match (I : Type) (regs : List (String × (I × Token)))
    (t : String) :
    (applyRegs regs).lookup t = (regs.filter (fun p => p.1 == t)).map Prod.snd := by
  rw [applyRegs, lookup_applyFrom]
  simp [Routes.mkNew, Routes.lookup, List.find?]

/-- C1 counterexample: a route registered under the wildcard pattern `a/+/b`
is not returned when looking up the concrete topic `a/x/b` (the claim says it
must be); it is only returned for the literal string `a/+/b`. -/
theorem c1_wildcard_not_matched :
    (((Routes.mkNew Int).register ("a/+/b") ((0 : Int), (0 : Token))).1).lookup ("a/x/b")
        = [] ∧
    (((Routes.mkNew Int).register ("a/+/b") ((0 : Int), (0 : Token))).1).lookup ("a/+/b")
        = [((0 : Int), (0 : Token))] :=
  ⟨rfl, rfl⟩

/-- C8: `register` returns a Subscribe message exactly when the topic was not
registered before (and nothing otherwise), and after any register sequence
`subscriptions` yields pairwise-distinct Subscribe messages — exactly one
per distinct registered topic. -/
theorem c8_register_subscriptions :
    (∀ (I : Type) (r : Routes I) (t : String) (id : I × Token),
      (r.register t id).2 = if t ∈ r.topics then none else some (MqttMsg.Sub t)) ∧
    (∀ (I : Type) (regs : List (String × (I × Token))),
      ((applyRegs regs).subscriptions).Nodup ∧
      (∀ t, MqttMsg.Sub t ∈ (applyRegs regs).subscriptions ↔ t ∈ regs.map Prod.fst) ∧
      ((applyRegs regs).subscriptions).length = (regs.map Prod.fst).toFinset.card) := by
  refine ⟨fun I r t id => register_snd r t id, ?_⟩
  intro I regs
  have htop : ∀ t, t ∈ (applyRegs regs).topics ↔ t ∈ regs.map Prod.fst := by
    intro t
    rw [applyRegs, mem_topics_applyFrom]
    simp [Routes.mkNew, Routes.topics]
  have hnd : ((applyRegs regs).topics).Nodup := by
    apply nodup_topics_applyFrom
    simp [Routes.mkNew, Routes.topics]
  have hsubs : (applyRegs regs).subscriptions
      = ((applyRegs regs).topics).map MqttMsg.Sub := by
    simp [Routes.subscriptions, Routes.topics, List.map_map]
  refine ⟨?_, ?_, ?_⟩
  · rw [hsubs]
    exact hnd.map (fun a b h => by injection h)
  · intro t
    rw [hsubs, List.mem_map]
    constructor
    · rintro ⟨x, hx, he⟩
      injection he with he
      exact he ▸ (htop x).mp hx
    · intro h
      exact ⟨t, (htop t).mpr h, rfl⟩
  · rw [hsubs, List.length_map]
    have hfin : (applyRegs regs).topics.toFinset = (regs.map Prod.fst).toFinset := by
      ext x
      simp [List.mem_toFinset, htop]
    rw [← List.toFinset_card_of_nodup hnd, hfin]

/-! ## Claim C4 — Switch8 input events -/

/-- C4: the `Switch8::handle_1wire` in device/switch8.rs passes no previous
input word to `digital_io`, so an input-word event on `<busid>_1` with value
`0b0000_0101` yields exactly the eight level publications on `in/ch1..ch8`
(channels 1 and 3 with payload 1) and no `button/ch<k>` publications at all —
regardless of any previously observed word, since the struct keeps no input
state. The edge comparison the claim describes lives in `digital_io` with a
`previous` word (second conjunct) but is not wired into `Switch8`. -/
theorem c4_switch8_levels_only :
    sw4.handle_1wire (.Devstatus ⟨1, "OWD1_1", 5⟩) =
      some ⟨[MqttMsg.new ("ESERA/1/OWD1/in/ch1") ("1"),
             MqttMsg.new ("ESERA/1/OWD1/in/ch2") ("0"),
             MqttMsg.new ("ESERA/1/OWD1/in/ch3") ("1"),
             MqttMsg.new ("ESERA/1/OWD1/in/ch4") ("0"),
             MqttMsg.new ("ESERA/1/OWD1/in/ch5") ("0"),
             MqttMsg.new ("ESERA/1/OWD1/in/ch6") ("0"),
             MqttMsg.new ("ESERA/1/OWD1/in/ch7") ("0"),
             MqttMsg.new ("ESERA/1/OWD1/in/ch8") ("0")], []⟩ ∧
    digitalIoFn sw4.info 8 ("button") 5 (some 0) =
      ⟨[MqttMsg.new ("ESERA/1/OWD1/button/ch1") ("1"),
        MqttMsg.new ("ESERA/1/OWD1/button/ch3") ("1")], []⟩ := by
  exact ⟨by decide, by decide⟩

/-! ## Claim C5 — model selection and serials -/

/-- C5 counterexample: article number 11221 does not select a Dimmer — the
`Model::select` table in device/mod.rs has no arm for it (and the `Model`
enum has no Dimmer variant), so 11221 falls through to `Unknown`. -/
theorem c5_dimmer_counterexample : Model.select info11221 = .Unknown info11221 := by
  decide

/-- C5 (amended): `Model::select` maps 11150→TempHum, 11151→AirQuality,
11216→BinarySensor, 11220/11228/11229→Switch8, 11322→Hub,
11340→Controller2, and every other article number — including 11221 — to
Unknown; and the LST3 parser keeps a serial of `FFFFFFFFFFFFFFFF` unchanged
(no empty-string mapping happens before the serial comparison that decides
slot replacement in bus.rs `populate`). -/
theorem c5_article_table :
    (∀ info : DeviceInfo,
      (info.artno = "11150" → Model.select info = .TempHum info) ∧
      (info.artno = "11151" → Model.select info = .AirQuality info) ∧
      (info.artno = "11216" → Model.select info = .BinarySensor info) ∧
      (info.artno = "11220" ∨ info.artno = "11228" ∨ info.artno = "11229" →
        Model.select info = .Switch8M ⟨info⟩) ∧
      (info.artno = "11322" → Model.select info = .Hub info) ∧
      (info.artno = "11340" → Model.select info = .Controller2 info) ∧
      (info.artno ∉ (["11150", "11151", "11216", "11220", "11228", "11229",
          "11322", "11340"] : List String) →
        Model.select info = .Unknown info)) ∧
    lst3S lstTestInput =
      .ok (("1_EVT|0:02:55\n").toList,
        ⟨1, .List3
          [⟨1, "OWD1", "EF000019096A4026", .Online, "11150", none⟩,
           ⟨1, "OWD2", "4300001982956429", .Online, "DS2408", some "K8"⟩,
           ⟨1, "OWD4", "FFFFFFFFFFFFFFFF", .Unconfigured, "none", none⟩]⟩) := by
  constructor
  · intro info
    refine ⟨?_, ?_, ?_, ?_, ?_, ?_, ?_⟩ <;> intro h
    · simp [Model.select, h]
    · simp [Model.select, h]
    · simp [Model.select, h]
    · rcases h with h | h | h <;> simp [Model.select, h]
    · simp [Model.select, h]
    · simp [Model.select, h]
    · simp only [List.mem_cons, List.not_mem_nil, or_false, not_or] at h
      obtain ⟨h1, h2, h3, h4, h5, h6, h7, h8⟩ := h
      simp [Model.select, h1, h2, h3, h4, h5, h6, h7, h8]
  · decide

/-- C5 witness: article number 11221 is not in the table and selects
`Unknown`. -/
theorem c5_article_table_witness :
    info11221.artno ∉ (["11150", "11151", "11216", "11220", "11228", "11229",
        "11322", "11340"] : List String) ∧
    Model.select info11221 = .Unknown info11221 :=
  ⟨by decide, (c5_article_table.1 info11221).2.2.2.2.2.2 (by decide)⟩

/-! ## Claim C6 — the controller handshake -/

/-- C6 counterexample: the handshake issued by `setup` contains no
keepalive-interval command at all, and sets DATATIME to 20 seconds — not the
claimed `SET,SYS,KALSENDTIME,120` and `SET,SYS,DATATIME,30`. -/
theorem c6_counterexample :
    ((setupTrace ("31.12.20") ("12:00:00")).map Prod.fst =
      ["SET,SYS,DATAPRINT,1", "SET,SYS,DATE,31.12.20", "SET,SYS,TIME,12:00:00",
       "SET,SYS,DATATIME,20", "SET,SYS,SAVE"]) ∧
    ("SET,SYS,KALSENDTIME,120" ∉ (setupTrace ("31.12.20") ("12:00:00")).map Prod.fst) ∧
    ("SET,SYS,DATATIME,30" ∉ (setupTrace ("31.12.20") ("12:00:00")).map Prod.fst) :=
  ⟨rfl, by decide, by decide⟩

/-- C6 (amended): the handshake sends, in order, `SET,SYS,DATAPRINT,1`
(awaiting the Dataprint ack), `SET,SYS,DATE,<d>` and `SET,SYS,TIME,<t>` from
the host wall clock (awaiting the Date and Time acks), `SET,SYS,DATATIME,20`
(awaiting the Datatime ack), and `SET,SYS,SAVE` (awaiting the Save ack); no
keepalive-send-interval command is part of the handshake. -/
theorem c6_setup_sequence (d t : String) :
    setupTrace d t =
      [("SET,SYS,DATAPRINT,1", .Dataprint),
       ("SET,SYS,DATE," ++ d, .Date),
       ("SET,SYS,TIME," ++ t, .Time),
       ("SET,SYS,DATATIME,20", .Datatime),
       ("SET,SYS,SAVE", .Save)] ∧
    (setupTrace d t).map Prod.snd =
      [.Dataprint, .Date, .Time, .Datatime, .Save] :=
  ⟨rfl, rfl⟩

/-! ## Claim C2 — the HVAC evaluation rule -/

/-- C2 (amended): for every Climate state, `eval` publishes exactly what the
amended HVAC rule prescribes (see `evalSpec`): the action published in
mode=off is `off` (not `idle`), aux commands are only published when an aux
command topic is configured, and an aux-on command additionally requires
the aux flag to be off. -/
theorem c2_eval_matches_amended_rule (c : Climate) : c.eval = evalSpec c := by
  obtain ⟨name, conf, mode, ts, tc, h, a⟩ := c
  obtain ⟨hs, hc, asx, acx, tp, dw, off⟩ := conf
  cases mode <;> cases h <;> cases a <;> cases acx <;>
    simp only [Climate.eval, evalSpec, Climate.set_aux, Climate.action,
      AUX_HEAT_TRIGGER, bool2str, ge_iff_le, not_lt, ne_eq, Bool.true_eq_false,
      Bool.false_eq_true, not_false_iff, not_true, if_true, if_false,
      ite_true, ite_false, and_true, and_false, true_and, false_and,
      not_false_eq_true, List.append_assoc, List.nil_append, List.append_nil,
      Bool.not_true, Bool.not_false, reduceCtorEq] <;>
    split_ifs <;> rfl

/-- C2 counterexample: with mode=off, heating on and aux on, `eval` publishes
the `off` action — not the `idle` action the claim requires; with mode=heat,
current 19 < 21 − 0.8 and heating off but aux already on, no aux-on command
is published; and with aux on but no aux command topic configured, mode=off
produces no aux publication at all. -/
theorem c2_counterexample :
    (MqttMsg.new ("homeassistant/climate/virt/hvac/action") ("idle") ∉ c2off.eval) ∧
    (MqttMsg.new ("homeassistant/climate/virt/hvac/action") ("off") ∈ c2off.eval) ∧
    (MqttMsg.new ("aux/cmd") ("1") ∉ c2heat.eval) ∧
    (c2noaux.eval =
      [MqttMsg.new ("homeassistant/climate/virt/hvac/action") ("off"),
       MqttMsg.new ("homeassistant/climate/virt/hvac/mode") ("off"),
       MqttMsg.new ("homeassistant/climate/virt/hvac/current") (showTemp 20),
       MqttMsg.new ("homeassistant/climate/virt/hvac/target") (showTemp 21)]) := by
  refine ⟨?_, ?_, ?_, ?_⟩ <;> with_unfolding_all decide

/-! ## Claim C3 — the HVAC hysteresis scenario -/

/-- C3 counterexample: the first update (20.9) does produce the heating-on
command, but the subsequent update to 20.5 does not produce an aux-on
command — 20.5 is not below the aux trigger setpoint − 0.8 = 20.2 — contrary
to the claim. -/
theorem c3_counterexample :
    MqttMsg.new ("heat/cmd") ("1") ∈ (c3run.2.getD 0 []) ∧
    MqttMsg.new ("aux/cmd") ("1") ∉ (c3run.2.getD 1 []) := by
  constructor <;> with_unfolding_all decide

/-- C3 (amended): starting from `Climate::new` (setpoint 21.0, current 21.0,
heating off, mode heat, aux configured), the updates to 20.9, 20.5 and 20.95
each produce a heating-on command — the heating flag is only updated via the
heat-state topic, which never fires in this run — and no aux command at all
(aux-on would need current < 20.2 with the aux flag off beforehand); the
final update to 21.5 produces no heating or aux command, since the heating
flag is still off. -/
theorem c3_scenario :
    c3run.2.map cmdPubs =
      [[MqttMsg.new ("heat/cmd") ("1")],
       [MqttMsg.new ("heat/cmd") ("1")],
       [MqttMsg.new ("heat/cmd") ("1")],
       []] ∧
    c3run.1.heating_on = false ∧ c3run.1.aux_on = false := by
  refine ⟨?_, ?_, ?_⟩ <;> with_unfolding_all decide

/-! ## Claim C9 — invalid HVAC payloads -/

/-- C9: an unparsable temperature payload makes `process` fail with the
float-format error carrying that payload (both for target/set and for the
current-temperature sensor token), and an unrecognised mode string fails
with the keyword error. The `Except.error` return carries no successor
state and no messages, so the handler publishes nothing and the Climate
state is unchanged (bin/climate.rs logs the error and drops it). -/
theorem c9_invalid_payload_errors (c : Climate) (p q : String)
    (hp : parseF32 p = none) (hq : Mode.fromStr q = none) :
    c.process TOK_TEMP_SET "" p = .error (.FloatFormat p) ∧
    c.process TOK_TEMP "" p = .error (.FloatFormat p) ∧
    c.process TOK_MODE_SET "" q = .error (.Keyword q) := by
  refine ⟨?_, ?_, ?_⟩ <;>
    norm_num [Climate.process, TOK_TEMP_SET, TOK_TEMP, TOK_MODE_SET,
      TOK_HEAT_STATE, TOK_AUX_STATE, hp, hq]

/-- C9 witness: the payload `21,5` does not parse as a number and `auto` is
not a recognised mode; both produce the corresponding errors. -/
theorem c9_witness :
    parseF32 ("21,5") = none ∧ Mode.fromStr ("auto") = none ∧
    c3start.process TOK_TEMP_SET "" ("21,5") = .error (.FloatFormat ("21,5")) ∧
    c3start.process TOK_TEMP "" ("21,5") = .error (.FloatFormat ("21,5")) ∧
    c3start.process TOK_MODE_SET "" ("auto") = .error (.Keyword ("auto")) := by
  have h := c9_invalid_payload_errors c3start "21,5" "auto" (by decide) (by decide)
  exact ⟨by decide, by decide, h.1, h.2.1, h.2.2⟩

/-! ## Claim C10 — str2bool and Switch8 MQTT commands -/

/-- C10: `str2bool` returns true exactly for the payloads `1`, `on` and
`true` (case-sensitively), and `Switch8::handle_mqtt` with a token in 0..=7
never fails: every publish payload yields exactly the one controller
command `SET,OWD,OUT,<devno>,<token>,<0|1>`, with `1` exactly for those
three payloads. -/
theorem c10_handle_mqtt_total :
    (∀ s : String, str2bool s = true ↔ s = "1" ∨ s = "on" ∨ s = "true") ∧
    (∀ (d : Switch8) (topic pl : String) (r : Bool) (tok : Int),
      0 ≤ tok → tok < 8 →
      d.handle_mqtt (.Pub topic pl r) tok =
        some (TwoWay.from_1wire
          ("SET,OWD,OUT," ++ d.info.devno ++ "," ++ toString tok ++ ","
            ++ (if str2bool pl then "1" else "0")))) := by
  constructor
  · intro s
    simp [str2bool, Bool.or_eq_true, beq_iff_eq, or_assoc]
  · intro d topic pl r tok h0 h8
    have hcond : (0 ≤ tok ∧ tok < 8) := ⟨h0, h8⟩
    cases hb : str2bool pl <;>
      simp [Switch8.handle_mqtt, MqttMsg.payload, hcond, bool2str, hb]

/-- C10 witness: token 1 with the unrecognised payload `ON` (wrong case)
still succeeds and produces the off command `SET,OWD,OUT,1,1,0`. -/
theorem c10_witness :
    (0 : Int) ≤ 1 ∧ (1 : Int) < 8 ∧
    sw4.handle_mqtt (.Pub ("t") ("ON") false) 1 =
      some (TwoWay.from_1wire ("SET,OWD,OUT,1,1,0")) := by
  refine ⟨by decide, by decide, ?_⟩
  have h := c10_handle_mqtt_total.2 sw4 "t" "ON" false 1 (by decide) (by decide)
  rw [h]
  decide

/-! ## Parser lemmas (towards C7) -/

theorem tagP_ok (t : List Char) : ∀ (input rest : List Char),
    input = t ++ rest → tagP t input = .ok (rest, ()) := by
  induction t with
  | nil =>
    intro input rest h
    subst h
    rfl
  | cons c ts ih =>
    intro input rest h
    subst h
    simp only [List.cons_append, tagP, if_pos rfl]
    exact ih _ rest rfl

theorem pfxList_nil (input : List Char) : pfxList [] input := by
  simp [pfxList]

theorem pfxList_of_nil (t : List Char) : pfxList t [] → t = [] := by
  intro h
  simpa [pfxList] using h.symm

theorem pfxList_cons (c : Char) (ts xs : List Char) :
    pfxList (c :: ts) (c :: xs) ↔ pfxList ts xs := by
  simp [pfxList, List.take_succ_cons]

theorem tagP_failure (t : List Char) : ∀ (input : List Char),
    ¬ pfxList t input → ¬ pfxList input t → tagP t input = .error .failure := by
  induction t with
  | nil =>
    intro input h1 _
    exact absurd (pfxList_nil input) h1
  | cons c ts ih =>
    intro input h1 h2
    cases input with
    | nil => exact absurd (pfxList_nil (c :: ts)) h2
    | cons x xs =>
      by_cases hx : x = c
      · subst hx
        have h1x : ¬ pfxList ts xs := fun hp => h1 ((pfxList_cons x ts xs).mpr hp)
        have h2x : ¬ pfxList xs ts := fun hp => h2 ((pfxList_cons x xs ts).mpr hp)
        simp only [tagP, if_pos rfl]
        exact ih xs h1x h2x
      · simp [tagP, hx]

theorem tagP_append_failure (t1 t2 : List Char) : ∀ (input : List Char),
    tagP t1 input = .error .failure → tagP (t1 ++ t2) input = .error .failure := by
  induction t1 with
  | nil =>
    intro input h
    simp [tagP] at h
  | cons c ts ih =>
    intro input h
    cases input with
    | nil => simp [tagP] at h
    | cons x xs =>
      by_cases hx : x = c
      · simp only [tagP, if_pos hx] at h
        simp only [List.cons_append, tagP, if_pos hx]
        exact ih xs h
      · simp [tagP, hx]

theorem spanP_append (p : Char → Bool) (w : List Char) (rest : List Char)
    (hw : ∀ x ∈ w, p x = true)
    (hr : rest = [] ∨ ∃ y ys, rest = y :: ys ∧ p y = false) :
    spanP p (w ++ rest) = (w, rest) := by
  induction w with
  | nil =>
    rcases hr with h | ⟨y, ys, h, hy⟩
    · subst h; rfl
    · subst h; simp [spanP, hy]
  | cons c cs ih =>
    have hc : p c = true := hw c (by simp)
    have ih2 := ih (fun x hx => hw x (by simp [hx]))
    simp [spanP, hc, ih2]

theorem while1P_ok (p : Char → Bool) (w : List Char) (y : Char)
    (ys input : List Char) (h : input = w ++ y :: ys)
    (hw : ∀ x ∈ w, p x = true) (hnz : w ≠ []) (hy : p y = false) :
    while1P p input = .ok (y :: ys, w) := by
  subst h
  have hs := spanP_append p w (y :: ys) hw (Or.inr ⟨y, ys, rfl, hy⟩)
  simp [while1P, hs, hnz]

theorem digit1P_ok (w : List Char) (y : Char) (ys input : List Char)
    (h : input = w ++ y :: ys) (hw : ∀ x ∈ w, x.isDigit = true)
    (hnz : w ≠ []) (hy : y.isDigit = false) :
    digit1P input = .ok (y :: ys, w) :=
  while1P_ok Char.isDigit w y ys input h hw hnz hy

theorem alphanumeric1P_ok (w : List Char) (y : Char) (ys input : List Char)
    (h : input = w ++ y :: ys) (hw : ∀ x ∈ w, x.isAlphanum = true)
    (hnz : w ≠ []) (hy : y.isAlphanum = false) :
    alphanumeric1P input = .ok (y :: ys, w) :=
  while1P_ok Char.isAlphanum w y ys input h hw hnz hy

theorem identifierP_ok (w : List Char) (y : Char) (ys input : List Char)
    (h : input = w ++ y :: ys)
    (hw : ∀ x ∈ w, (x.isAlphanum || x = '_') = true)
    (hnz : w ≠ []) (hy : (y.isAlphanum || y = '_') = false) :
    identifierP input = .ok (y :: ys, w) :=
  while1P_ok _ w y ys input h hw hnz hy

theorem ccP_ok (c : Char) (input rest : List Char) (h : input = c :: rest) :
    ccP c input = .ok (rest, ()) := by
  subst h
  simp [ccP]

theorem ccP_failure (c x : Char) (xs : List Char) (hx : x ≠ c) :
    ccP c (x :: xs) = .error .failure := by
  simp [ccP, hx]

theorem notLineEndingP_ok (w ys input : List Char)
    (h : input = w ++ '\n' :: ys)
    (hw : ∀ x ∈ w, (x != '\r' && x != '\n') = true) :
    notLineEndingP input = .ok ('\n' :: ys, w) := by
  subst h
  have hs := spanP_append (fun c => c != '\r' && c != '\n') w ('\n' :: ys) hw
    (Or.inr ⟨'\n', ys, rfl, by decide⟩)
  simp [notLineEndingP, hs]

theorem lineEndingP_ok (input rest : List Char) (h : input = '\n' :: rest) :
    lineEndingP input = .ok (rest, ()) := by
  subst h
  simp [lineEndingP]

theorem poptP_ok {α : Type} (p : Parser α) (input rem : List Char) (a : α)
    (h : p input = .ok (rem, a)) : poptP p input = .ok (rem, some a) := by
  simp [poptP, h]

theorem poptP_failure {α : Type} (p : Parser α) (input : List Char)
    (h : p input = .error .failure) : poptP p input = .ok (input, none) := by
  simp [poptP, h]

theorem nameFieldP_ok (n rest : List Char) (input : List Char)
    (h : input = '|' :: (n ++ '\n' :: rest))
    (hn : ∀ x ∈ n, (x != '\r' && x != '\n') = true) :
    nameFieldP input = .ok ('\n' :: rest, n) := by
  subst h
  unfold nameFieldP
  rw [ccP_ok '|' _ _ rfl]
  exact notLineEndingP_ok n rest _ rfl hn

theorem nameFieldP_failure (x : Char) (xs : List Char) (hx : x ≠ '|') :
    nameFieldP (x :: xs) = .error .failure := by
  unfold nameFieldP
  rw [ccP_failure '|' x xs hx]

theorem status_wire_wf (st : Status) :
    (st.wire).toList ≠ [] ∧
      (∀ x ∈ (st.wire).toList, (x.isAlphanum || x = '_') = true) := by
  cases st <;> exact ⟨by decide, by decide⟩

theorem fromWire_wire (st : Status) :
    Status.fromWire (String.mk (st.wire).toList) = some st := by
  cases st <;> decide

set_option maxRecDepth 10000 in
theorem repr_digits : ∀ c < 256, (toString c).toList ≠ [] ∧
    (∀ x ∈ (toString c).toList, x.isDigit = true) ∧
    digitsVal (toString c).toList = c := by
  decide

theorem contnoP_ok (c : Nat) (rest input : List Char)
    (h : input = (toString c).toList ++ '_' :: rest) (hc : c < 256) :
    contnoP input = .ok (rest, c) := by
  obtain ⟨hne, hdig, hval⟩ := repr_digits c hc
  unfold contnoP
  rw [digit1P_ok (toString c).toList '_' rest input h hdig hne (by decide)]
  dsimp only
  rw [ccP_ok '_' _ _ rfl]
  dsimp only
  rw [hval, if_pos (by omega)]

theorem headerP_ok (key : String) (c : Nat) (input rest : List Char)
    (h : input = (toString c).toList ++ '_' :: (key.toList ++ '|' :: rest))
    (hc : c < 256) :
    headerP key input = .ok (rest, c) := by
  unfold headerP
  rw [contnoP_ok c (key.toList ++ '|' :: rest) input h hc]
  dsimp only
  rw [tagP_ok key.toList _ ('|' :: rest) rfl]
  dsimp only
  rw [ccP_ok '|' _ _ rfl]

theorem remainderP_ok (t : String) (ys input : List Char)
    (h : input = t.toList ++ '\n' :: ys) (ht : wfText t) :
    remainderP input = .ok (ys, t.toList) := by
  unfold remainderP
  rw [notLineEndingP_ok t.toList ys input h ht]
  dsimp only
  rw [lineEndingP_ok _ ys rfl]

theorem lst3Item_ok (c : Nat) (e : LstEntry) (rest : List Char)
    (he : wfEntry e) :
    lst3ItemP c (itemChars c e ++ rest) = .ok (rest, entryInfo c e) := by
  obtain ⟨B, S, st, A, name⟩ := e
  obtain ⟨⟨hBne, hBal⟩, ⟨hSne, hSal⟩, ⟨hAne, hAal⟩, hName⟩ := he
  have hwire := status_wire_wf st
  cases name with
  | some n =>
    simp only [Option.getD] at hName
    unfold lst3ItemP
    rw [tagP_ok (lstTag ++ (toString c).toList ++ ['_']) _
      (B.toList ++ '|' :: (S.toList ++ '|' :: 'S' :: '_' ::
        ((st.wire).toList ++ '|' :: (A.toList ++ '|' :: (n.toList ++ '\n' :: rest)))))
      (by simp [itemChars, statusTag, List.append_assoc])]
    dsimp only
    rw [alphanumeric1P_ok B.toList '|' _ _ rfl hBal hBne (by decide)]
    dsimp only
    rw [ccP_ok '|' _ _ rfl]
    dsimp only
    rw [alphanumeric1P_ok S.toList '|' _ _ rfl hSal hSne (by decide)]
    dsimp only
    rw [tagP_ok statusTag _
      ((st.wire).toList ++ '|' :: (A.toList ++ '|' :: (n.toList ++ '\n' :: rest)))
      (by simp [statusTag])]
    dsimp only
    rw [identifierP_ok (st.wire).toList '|' _ _ rfl hwire.2 hwire.1 (by decide)]
    dsimp only
    rw [ccP_ok '|' _ _ rfl]
    dsimp only
    rw [alphanumeric1P_ok A.toList '|' _ _ rfl hAal hAne (by decide)]
    dsimp only
    rw [poptP_ok nameFieldP _ _ n.toList (nameFieldP_ok n.toList rest _ rfl hName)]
    dsimp only
    rw [lineEndingP_ok _ rest rfl]
    dsimp only
    rw [fromWire_wire st]
    rfl
  | none =>
    unfold lst3ItemP
    rw [tagP_ok (lstTag ++ (toString c).toList ++ ['_']) _
      (B.toList ++ '|' :: (S.toList ++ '|' :: 'S' :: '_' ::
        ((st.wire).toList ++ '|' :: (A.toList ++ '\n' :: rest))))
      (by simp [itemChars, statusTag, List.append_assoc])]
    dsimp only
    rw [alphanumeric1P_ok B.toList '|' _ _ rfl hBal hBne (by decide)]
    dsimp only
    rw [ccP_ok '|' _ _ rfl]
    dsimp only
    rw [alphanumeric1P_ok S.toList '|' _ _ rfl hSal hSne (by decide)]
    dsimp only
    rw [tagP_ok statusTag _
      ((st.wire).toList ++ '|' :: (A.toList ++ '\n' :: rest))
      (by simp [statusTag])]
    dsimp only
    rw [identifierP_ok (st.wire).toList '|' _ _ rfl hwire.2 hwire.1 (by decide)]
    dsimp only
    rw [ccP_ok '|' _ _ rfl]
    dsimp only
    rw [alphanumeric1P_ok A.toList '\n' _ _ rfl hAal hAne (by decide)]
    dsimp only
    rw [poptP_failure nameFieldP _ (nameFieldP_failure '\n' rest (by decide))]
    dsimp only
    rw [lineEndingP_ok _ rest rfl]
    dsimp only
    rw [fromWire_wire st]
    rfl

theorem itemChars_length_pos (c : Nat) (e : LstEntry) :
    0 < (itemChars c e).length := by
  simp [itemChars, lstTag, List.length_append]

theorem lst3Item_stop (c : Nat) (rest : List Char)
    (hnl : '\n' ∈ rest) (hpfx : ¬ pfxList lstTag rest) :
    lst3ItemP c rest = .error .failure := by
  have h2 : ¬ pfxList rest lstTag := by
    intro hp
    have hp2 : lstTag.take rest.length = rest := hp
    rw [← hp2] at hnl
    have hmem : '\n' ∈ lstTag := List.take_subset _ _ hnl
    simp [lstTag] at hmem
  have hfail : tagP (lstTag ++ ((toString c).toList ++ ['_'])) rest = .error .failure :=
    tagP_append_failure lstTag _ rest (tagP_failure lstTag rest hpfx h2)
  unfold lst3ItemP
  rw [← List.append_assoc] at hfail
  rw [hfail]

theorem manyGo_ok (c : Nat) (es : List LstEntry) :
    ∀ (fuel count : Nat) (acc : List DeviceInfo) (input rest : List Char),
      input = (es.map (itemChars c)).flatten ++ rest →
      (∀ e ∈ es, wfEntry e) →
      es.length ≤ fuel →
      lst3ItemP c rest = .error .failure →
      1 ≤ count + es.length →
      manyGo (lst3ItemP c) 1 fuel count acc input
        = .ok (rest, acc.reverse ++ es.map (entryInfo c)) := by
  induction es with
  | nil =>
    intro fuel count acc input rest hin hwf hlen hstop hmin
    simp only [List.map_nil, List.flatten_nil, List.nil_append] at hin
    subst hin
    cases fuel with
    | zero => simp [manyGo]
    | succ f =>
      simp only [List.length_nil] at hmin
      simp only [manyGo, hstop]
      rw [if_pos (by omega)]
      simp
  | cons e es ih =>
    intro fuel count acc input rest hin hwf hlen hstop hmin
    cases fuel with
    | zero => simp at hlen
    | succ f =>
      have hwfe : wfEntry e := hwf e (by simp)
      have hitem := lst3Item_ok c e ((es.map (itemChars c)).flatten ++ rest) hwfe
      subst hin
      simp only [List.map_cons, List.flatten_cons, List.append_assoc]
      simp only [manyGo]
      rw [hitem]
      dsimp only
      rw [if_neg (by
        intro hl
        have hpos := itemChars_length_pos c e
        simp only [List.length_append] at hl
        omega)]
      rw [ih f (count + 1) (entryInfo c e :: acc) _ rest rfl
        (fun x hx => hwf x (by simp [hx]))
        (by simp only [List.length_cons] at hlen; omega) hstop
        (by simp only [List.length_cons] at hmin ⊢; omega)]
      simp [List.reverse_cons, List.append_assoc]

theorem manyGo_length {α : Type} (p : Parser α) (min : Nat) :
    ∀ (fuel count : Nat) (acc : List α) (input rem : List Char) (out : List α),
      manyGo p min fuel count acc input = .ok (rem, out) →
      out.length ≤ acc.length + fuel := by
  intro fuel
  induction fuel with
  | zero =>
    intro count acc input rem out h
    simp only [manyGo] at h
    injection h with h
    injection h with h1 h2
    subst h2
    simp
  | succ f ihf =>
    intro count acc input rem out h
    simp only [manyGo] at h
    cases hp : p input with
    | ok val =>
      obtain ⟨rem2, a⟩ := val
      rw [hp] at h
      dsimp only at h
      by_cases hl : rem2.length = input.length
      · rw [if_pos hl] at h
        exact absurd h (by simp)
      · rw [if_neg hl] at h
        have hb := ihf (count + 1) (a :: acc) rem2 rem out h
        simp at hb
        omega
    | error e =>
      rw [hp] at h
      cases e with
      | failure =>
        dsimp only at h
        by_cases hm : min ≤ count
        · rw [if_pos hm] at h
          injection h with h
          injection h with h1 h2
          subst h2
          simp
        · rw [if_neg hm] at h
          exact absurd h (by simp)
      | incomplete =>
        dsimp only at h
        exact absurd h (by simp)

theorem manyGo_min_unreached {α : Type} (p : Parser α) (input : List Char)
    (fuel : Nat) (hf : fuel ≠ 0) (h : p input = .error .failure) :
    manyGo p 1 fuel 0 [] input = .error .failure := by
  cases fuel with
  | zero => exact absurd rfl hf
  | succ f =>
    simp only [manyGo, h]
    rw [if_neg (by omega)]

/-! ## Claim C7 — the LST3 parser -/

/-- C7: the LST3 parser requires at least one `LST|` line after the header —
a header followed directly by a non-`LST|` line fails rather than producing
an empty device list (second conjunct); with 1..30 wellformed `LST|` lines
followed by a line that does not begin with `LST|`, it consumes exactly
those lines, returns the parsed entries in their original order, and leaves
the following line unconsumed in the input (first conjunct); and no
successful parse ever returns more than 30 entries — the `many_m_n(1, 30)`
cap (third conjunct). -/
theorem c7_lst3_shape :
    (∀ (c : Nat) (t : String) (es : List LstEntry) (rest : List Char),
      c < 256 → wfText t → (∀ e ∈ es, wfEntry e) →
      1 ≤ es.length → es.length ≤ 30 →
      '\n' ∈ rest → ¬ pfxList lstTag rest →
      lst3P (lst3Input c t es rest)
        = .ok (rest, ⟨c, .List3 (es.map (entryInfo c))⟩)) ∧
    (∀ (c : Nat) (t : String) (rest : List Char),
      c < 256 → wfText t → '\n' ∈ rest → ¬ pfxList lstTag rest →
      lst3P (lst3Input c t [] rest) = .error .failure) ∧
    (∀ (input rem : List Char) (ow : OW) (items : List DeviceInfo),
      lst3P input = .ok (rem, ow) → ow.msg = .List3 items → items.length ≤ 30) := by
  refine ⟨?_, ?_, ?_⟩
  · intro c t es rest hc ht hwf h1 h30 hnl hpfx
    unfold lst3P
    rw [headerP_ok "LST3" c _
      (t.toList ++ '\n' :: ((es.map (itemChars c)).flatten ++ rest))
      (by simp [lst3Input, List.append_assoc]) hc]
    dsimp only
    rw [remainderP_ok t _ _ rfl ht]
    dsimp only
    unfold manyMN
    rw [manyGo_ok c es 30 0 [] _ rest rfl hwf h30
      (lst3Item_stop c rest hnl hpfx) (by omega)]
    simp
  · intro c t rest hc ht hnl hpfx
    unfold lst3P
    rw [headerP_ok "LST3" c _ (t.toList ++ '\n' :: rest)
      (by simp [lst3Input, List.append_assoc]) hc]
    dsimp only
    rw [remainderP_ok t _ _ rfl ht]
    dsimp only
    unfold manyMN
    rw [manyGo_min_unreached (lst3ItemP c) rest 30 (by omega)
      (lst3Item_stop c rest hnl hpfx)]
  · intro input rem ow items h hmsg
    unfold lst3P at h
    cases hh : headerP "LST3" input with
    | error e =>
      rw [hh] at h
      exact absurd h (by simp)
    | ok v =>
      obtain ⟨r1, contno⟩ := v
      rw [hh] at h
      dsimp only at h
      cases hr : remainderP r1 with
      | error e =>
        rw [hr] at h
        exact absurd h (by simp)
      | ok v2 =>
        obtain ⟨r2, txt⟩ := v2
        rw [hr] at h
        dsimp only at h
        cases hm : manyMN 1 30 (lst3ItemP contno) r2 with
        | error e =>
          rw [hm] at h
          exact absurd h (by simp)
        | ok v3 =>
          obtain ⟨r3, its⟩ := v3
          rw [hm] at h
          dsimp only at h
          injection h with h
          injection h with he1 he2
          subst he2
          simp only at hmsg
          injection hmsg with hits
          subst hits
          unfold manyMN at hm
          have hlen := manyGo_length (lst3ItemP contno) 1 30 0 [] r2 r3 its hm
          simpa using hlen

/-- C7 witness: the repo's `parse_lst3` test vector — header, three `LST|`
lines, then a `1_EVT…` line — parses into the three device entries in their
original order and leaves the event line unconsumed; and the same header
directly followed by the event line fails instead of producing an empty
device list. -/
theorem c7_lst3_shape_witness :
    lst3P (lst3Input 1 "00:02:54" c7entries ("1_EVT|0:02:55\n").toList)
        = .ok (("1_EVT|0:02:55\n").toList, ⟨1, .List3 (c7entries.map (entryInfo 1))⟩) ∧
    lst3P (lst3Input 1 "00:02:54" [] ("1_EVT|0:02:55\n").toList)
        = .error .failure := by
  constructor
  · exact c7_lst3_shape.1 1 "00:02:54" c7entries _ (by decide) (by decide)
      (by decide) (by decide) (by decide) (by decide) (by decide)
  · exact c7_lst3_shape.2.1 1 "00:02:54" _ (by decide) (by decide)
      (by decide) (by decide)

end Esera
